import Mathlib

/-!
Verification development for the radijator radio-configuration tool
(`radijator-cli.py`).  The Python code is shallowly embedded: Python
runtime values are modelled by `PyVal`, raised exceptions by
`Except PyErr`, the serial device's memory bank by an explicit state
record, and the per-session serial transport by an event trace.
-/

/-- Python runtime values as they occur in this program: JSON scalars,
lists and dicts (a dict is an insertion-ordered association list). -/
inductive PyVal where
  | jnull
  | jbool (b : Bool)
  | jint (n : Int)
  | jfloat (q : Rat)
  | jstr (s : String)
  | jarr (xs : List PyVal)
  | jobj (fields : List (String × PyVal))

/-- Hashable Python scalar values, usable as dict keys. -/
inductive PyKey where
  | knull
  | kbool (b : Bool)
  | kint (n : Int)
  | kfloat (q : Rat)
  | kstr (s : String)
  deriving DecidableEq

/-- The hashable scalars seen as Python values. -/
def PyKey.toVal : PyKey → PyVal
  | .knull => .jnull
  | .kbool b => .jbool b
  | .kint n => .jint n
  | .kfloat q => .jfloat q
  | .kstr s => .jstr s

/-- View a Python value as a dict key; `none` for the unhashable
values (lists and dicts), on which keying raises `TypeError`. -/
def PyVal.toKey : PyVal → Option PyKey
  | .jnull => some .knull
  | .jbool b => some (.kbool b)
  | .jint n => some (.kint n)
  | .jfloat q => some (.kfloat q)
  | .jstr s => some (.kstr s)
  | .jarr _ => none
  | .jobj _ => none

/-- Whether a Python value may be used as a dict key (lists and dicts
are unhashable). -/
def isHashable : PyVal → Bool
  | .jarr _ => false
  | .jobj _ => false
  | _ => true

/-- Built-in Python exceptions this program can raise. -/
inductive PyErr where
  | attributeError
  | typeError
  | keyError
  | deviceError
  deriving DecidableEq

/-- First-match lookup in an association list with string keys
(Python dicts from `json.load` have unique keys, so first match is
the dict lookup). -/
def lookupStr : List (String × PyVal) → String → Option PyVal
  | [], _ => none
  | p :: rest, k => if p.1 = k then some p.2 else lookupStr rest k

/-- Python dict assignment `d[k] = v` on a dict with hashable keys:
update in place if the key exists, append otherwise. -/
def dictSet : List (PyKey × PyVal) → PyKey → PyVal → List (PyKey × PyVal)
  | [], k, v => [(k, v)]
  | p :: rest, k, v => if p.1 = k then (k, v) :: rest else p :: dictSet rest k v

/-- Python dict lookup `d[k]` on a dict with hashable keys (first match). -/
def dictLookup : List (PyKey × PyVal) → PyKey → Option PyVal
  | [], _ => none
  | p :: rest, k => if p.1 = k then some p.2 else dictLookup rest k

/-- Python substring test `pat in s`. -/
def strContains (s pat : String) : Bool :=
  pat = "" || (s.splitOn pat).length ≥ 2

/-- Python equality of a runtime value with a string literal: only a
`str` of the same spelling compares equal. -/
def pyEqStr : PyVal → String → Bool
  | .jstr s, k => s = k
  | _, _ => false

/-- Python equality of a runtime value with an integer literal: only an
`int` of the same value compares equal (no float coercion arises in
this program). -/
def pyEqInt : PyVal → Int → Bool
  | .jint m, n => m = n
  | _, _ => false

/-- Python membership test `k in v` for a string `k`: key test on dicts,
element test on lists, substring test on strings, `TypeError` otherwise. -/
def pyContains (v : PyVal) (k : String) : Except PyErr Bool :=
  match v with
  | .jobj fs => .ok (fs.any fun p => decide (p.1 = k))
  | .jarr xs => .ok (xs.any fun x => pyEqStr x k)
  | .jstr s => .ok (strContains s k)
  | _ => .error .typeError

/-- Python subscript `v[k]` for a string key `k`: dict lookup (raising
`KeyError` when absent), `TypeError` on every non-dict value. -/
def pyGetItemStr (v : PyVal) (k : String) : Except PyErr PyVal :=
  match v with
  | .jobj fs =>
      match lookupStr fs k with
      | some r => .ok r
      | none => .error .keyError
  | _ => .error .typeError

/-- `RadijatorMemory`: the model-agnostic channel record.  Field
defaults are the `__init__` keyword defaults of the Python class. -/
structure RadijatorMemory where
  number : PyVal
  name : PyVal
  freq : PyVal
  power_level : PyVal
  tone : PyVal := PyVal.jstr ("")
  rdcs_code : PyVal := PyVal.jint 23
  tdcs_code : PyVal := PyVal.jint 23
  dcs_polarity : PyVal := PyVal.jstr ("NN")
  mode : PyVal := PyVal.jstr ("NFM")
  tuning_step : PyVal := PyVal.jfloat 5

/-- The chirp `Memory` wire-level record, restricted to the fields this
program reads or writes.  Defaults are chirp's `Memory()` defaults. -/
structure ChirpMem where
  number : PyVal := PyVal.jint 0
  name : PyVal := PyVal.jstr ("")
  freq : PyVal := PyVal.jint 0
  power : PyVal := PyVal.jnull
  tmode : PyVal := PyVal.jstr ("")
  rx_dtcs : PyVal := PyVal.jint 23
  dtcs : PyVal := PyVal.jint 23
  dtcs_polarity : PyVal := PyVal.jstr ("NN")
  mode : PyVal := PyVal.jstr ("FM")
  tuning_step : PyVal := PyVal.jfloat 5
  duplex : PyVal := PyVal.jstr ("")
  offset : PyVal := PyVal.jint 600000
  empty : Bool := false

namespace RadijatorMemory

/-- `RadijatorMemory.from_chirp_memory`: build a record from a
device-read chirp memory.  `tone` is not passed, so it takes the
constructor default `""`. -/
def from_chirp_memory (mem : ChirpMem) : RadijatorMemory :=
  { number := mem.number
    name := mem.name
    freq := mem.freq
    power_level := mem.power
    rdcs_code := mem.rx_dtcs
    tdcs_code := mem.dtcs
    dcs_polarity := mem.dtcs_polarity
    mode := mem.mode
    tuning_step := mem.tuning_step }

/-- `RadijatorMemory.to_chirp_memory`: translate a record to a fresh
chirp `Memory()` with `duplex`, `offset` and `empty` forced. -/
def to_chirp_memory (rad_mem : RadijatorMemory) : ChirpMem :=
  { number := rad_mem.number
    name := rad_mem.name
    freq := rad_mem.freq
    power := rad_mem.power_level
    tmode := rad_mem.tone
    rx_dtcs := rad_mem.rdcs_code
    dtcs := rad_mem.tdcs_code
    dtcs_polarity := rad_mem.dcs_polarity
    mode := rad_mem.mode
    tuning_step := rad_mem.tuning_step
    duplex := PyVal.jstr ("")
    offset := PyVal.jint 0
    empty := false }

/-- `RadijatorMemory.from_json`: build a record from a JSON mapping.
`data["name"]` and `data["frequency"]` raise `KeyError` when absent;
the remaining keys use `data.get` with the documented defaults. -/
def from_json (data : List (String × PyVal)) (power_level : PyVal) :
    Except PyErr RadijatorMemory :=
  match pyGetItemStr (PyVal.jobj data) ("name") with
  | .error e => .error e
  | .ok name =>
  match pyGetItemStr (PyVal.jobj data) ("frequency") with
  | .error e => .error e
  | .ok freq =>
  .ok
    { number := (lookupStr data ("number")).getD PyVal.jnull
      name := name
      freq := freq
      power_level := power_level
      tone := (lookupStr data ("tone")).getD (PyVal.jstr (""))
      rdcs_code := (lookupStr data ("rdcs_code")).getD (PyVal.jint 23)
      tdcs_code := (lookupStr data ("tdcs_code")).getD (PyVal.jint 23)
      dcs_polarity := (lookupStr data ("dcs_polarity")).getD (PyVal.jstr ("NN"))
      mode := (lookupStr data ("mode")).getD (PyVal.jstr ("NFM"))
      tuning_step := (lookupStr data ("tuning_step")).getD (PyVal.jfloat 5) }

end RadijatorMemory

/-- State of the device's memory bank as seen through the chirp driver:
the stored memory of every slot, plus the log of all `set_memory` calls
the bank accessor has recorded. -/
structure BankState where
  bank : Nat → ChirpMem
  setLog : List ChirpMem

/-- `radio.set_memory(mem)`: the driver stores `mem` at the slot named
by `mem.number`; the bank accessor records the call. -/
def set_memory (st : BankState) (mem : ChirpMem) : BankState :=
  { bank := fun j => if pyEqInt mem.number (Int.ofNat j) then mem else st.bank j
    setLog := st.setLog ++ [mem] }

/-- `radio.get_memory(i)`: the driver returns the stored memory of slot `i`. -/
def get_memory (st : BankState) (i : Nat) : ChirpMem :=
  st.bank i

/-- `RadijatorRadio._clear_memories`: for every slot index of
`MEMORY_RANGE` in order, fetch the memory, mark it empty and write it
back. -/
def clear_memories (memory_range : List Nat) (st : BankState) : BankState :=
  match memory_range with
  | [] => st
  | i :: rest => clear_memories rest (set_memory st { get_memory st i with empty := true })

/-- The `for memory_number, memory in enumerate(memories, start=1)` loop
of `RadijatorRadio.set_memories`: assign the next sequential number,
translate to wire form, write. -/
def program_memories (n : Nat) (memories : List RadijatorMemory) (st : BankState) : BankState :=
  match memories with
  | [] => st
  | memory :: rest =>
      program_memories (n + 1) rest
        (set_memory st
          (RadijatorMemory.to_chirp_memory { memory with number := PyVal.jint (Int.ofNat n) }))

/-- `RadijatorRadio.set_memories`: clear the whole addressable range,
then program the supplied records sequentially starting at slot 1.
No range check is performed anywhere. -/
def set_memories (memories : List RadijatorMemory) (memory_range : List Nat)
    (st : BankState) : BankState :=
  program_memories 1 memories (clear_memories memory_range st)

/-- A concrete example record (channel data only; `number` is
overridden by the programmer). -/
def memRecEx1 : RadijatorMemory :=
  { number := PyVal.jnull
    name := PyVal.jstr ("Ch1")
    freq := PyVal.jint 446000000
    power_level := PyVal.jstr ("High") }

/-- A second concrete example record. -/
def memRecEx2 : RadijatorMemory :=
  { number := PyVal.jnull
    name := PyVal.jstr ("Ch2")
    freq := PyVal.jint 446100000
    power_level := PyVal.jstr ("High") }

/-- A concrete bank state satisfying the driver invariant, with an
empty set-call log. -/
def bankStEx : BankState :=
  { bank := fun i => { number := PyVal.jint (Int.ofNat i) }
    setLog := [] }

/-- One observable transport or device action of a session. -/
inductive SessionEvent where
  | openPort
  | syncIn
  | getSettings
  | sleepReset
  | syncOut
  | closePort
  deriving DecidableEq

/-- Failure injection for the external collaborators of a session:
which collaborator call raises when it is reached. -/
structure SessionEnv where
  openFails : Bool
  syncInFails : Bool
  getSettingsFails : Bool
  syncOutFails : Bool

/-- `RadijatorRadio.download_fw`: open the serial transport, run
`sync_in`, read the settings, optionally sleep through the radio's
reset window, then close the transport.  The body is a plain statement
sequence with no `try`/`finally`: each step runs only if every earlier
step returned normally, so a raising step ends the call with the trace
produced so far.  Returns the outcome and the event trace. -/
def download_fw (env : SessionEnv) (wait_for_reset : Bool) :
    Except PyErr Unit × List SessionEvent :=
  if env.openFails then (.error .deviceError, [])
  else if env.syncInFails then (.error .deviceError, [.openPort])
  else if env.getSettingsFails then (.error .deviceError, [.openPort, .syncIn])
  else
    (.ok (), [.openPort, .syncIn, .getSettings] ++
      (if wait_for_reset then [.sleepReset] else []) ++ [.closePort])

/-- `RadijatorRadio.upload_fw`: open the serial transport, run
`sync_out`, close the transport; again a plain sequence with no
`try`/`finally`. -/
def upload_fw (env : SessionEnv) : Except PyErr Unit × List SessionEvent :=
  if env.openFails then (.error .deviceError, [])
  else if env.syncOutFails then (.error .deviceError, [.openPort])
  else (.ok (), [.openPort, .syncOut, .closePort])

/-- The environment in which the firmware read (`sync_in`) raises. -/
def envSyncInFails : SessionEnv :=
  { openFails := false
    syncInFails := true
    getSettingsFails := false
    syncOutFails := false }

/-- The dict literal `{"pretty_name": setting_key, "value": v}` the
transposer stores per model entry. -/
def profileEntry (setting_key : String) (v : PyVal) : PyVal :=
  PyVal.jobj [(("pretty_name"), PyVal.jstr setting_key), (("value"), v)]

/-- The `for setting_key, model_settings in profile.items()` loop of
`RadijatorRadio._transpose_settings_profile`: for each label whose
sub-mapping contains the model id, store the model entry's value and
the label under the entry's internal name.  Python evaluation order in
the dict assignment: the right-hand side (the `value` lookup) runs
before the target key (the `name` lookup); keying on an unhashable
value raises `TypeError`. -/
def transpose_loop (model_id : String) (acc : List (PyKey × PyVal)) :
    List (String × PyVal) → Except PyErr (List (PyKey × PyVal))
  | [] => .ok acc
  | p :: rest =>
      match pyContains p.2 model_id with
      | .error e => .error e
      | .ok false => transpose_loop model_id acc rest
      | .ok true =>
          match pyGetItemStr p.2 model_id with
          | .error e => .error e
          | .ok entry =>
              match pyGetItemStr entry ("value") with
              | .error e => .error e
              | .ok v =>
                  match pyGetItemStr entry ("name") with
                  | .error e => .error e
                  | .ok nameVal =>
                      match nameVal.toKey with
                      | some k =>
                          transpose_loop model_id (dictSet acc k (profileEntry p.1 v)) rest
                      | none => .error .typeError

/-- `RadijatorRadio._transpose_settings_profile` applied to the parsed
profile document: `profile.items()` raises `AttributeError` on a
non-dict document, then the loop builds the transposed profile. -/
def transpose_settings_profile (profile : PyVal) (model_id : String) :
    Except PyErr (List (PyKey × PyVal)) :=
  match profile with
  | .jobj items => transpose_loop model_id [] items
  | _ => .error .attributeError

/-- Stated from the claim's words: the document is a mapping whose
values are all mappings. -/
def isMappingOfMappings : PyVal → Bool
  | .jobj fs => fs.all fun p => match p.2 with | .jobj _ => true | _ => false
  | _ => false

/-- Well-formedness of one label's sub-mapping in an authored profile
document: it is a mapping and, if it has an entry for the model id,
that entry is a mapping with a present `value` and a hashable `name`. -/
def wfModelSettings (model_id : String) (ms : PyVal) : Bool :=
  match ms with
  | .jobj fs =>
      match lookupStr fs model_id with
      | none => true
      | some (.jobj efs) =>
          (lookupStr efs ("value")).isSome &&
            (match lookupStr efs ("name") with
              | some nm => isHashable nm
              | none => false)
      | some _ => false
  | _ => false

/-- The contribution of one document label to the transposed profile:
`some (k, e)` when the label's sub-mapping has an entry for the model
id, where `k` is that entry's internal name and `e` pairs the entry's
value with the label as pretty name; `none` when the label has no entry
for the model id. -/
def modelContribution (model_id : String) (p : String × PyVal) :
    Option (PyKey × PyVal) :=
  match p.2 with
  | .jobj fs =>
      match lookupStr fs model_id with
      | some (.jobj efs) =>
          match lookupStr efs ("name"), lookupStr efs ("value") with
          | some nm, some v =>
              match nm.toKey with
              | some k => some (k, profileEntry p.1 v)
              | none => none
          | _, _ => none
      | _ => none
  | _ => none

/-- Last-write-wins association: the value paired with the LAST
occurrence of the key, scanning left to right. -/
def lastAssoc (l : List (PyKey × PyVal)) (k : PyKey) : Option PyVal :=
  l.foldl (fun acc p => if p.1 = k then some p.2 else acc) none

/-- The authored document of the spec scenario:
`{"Squelch": {"modelA": {"name": "sql_lvl", "value": 5}}}`. -/
def scenarioDoc : List (String × PyVal) :=
  [(("Squelch"),
    PyVal.jobj [(("modelA"),
      PyVal.jobj [(("name"), PyVal.jstr ("sql_lvl")), (("value"), PyVal.jint 5)])])]

/-- One step of the `for setting in settings.walk()` loop of
`RadijatorRadio.set_settings_profile`: when the leaf's internal name is
a key of the transposed profile, overwrite the leaf's value with the
profile entry's `value` item; otherwise leave the leaf unchanged. -/
def apply_profile_leaf (profile : List (PyKey × PyVal)) (leaf : String × PyVal) :
    Except PyErr (String × PyVal) :=
  match dictLookup profile (PyKey.kstr leaf.1) with
  | some entry =>
      match pyGetItemStr entry ("value") with
      | .error e => .error e
      | .ok v => .ok (leaf.1, v)
  | none => .ok leaf

/-- `RadijatorRadio.set_settings_profile` acting on the walked list of
leaf settings (name, value): every leaf is visited once in walk order. -/
def set_settings_profile (profile : List (PyKey × PyVal)) :
    List (String × PyVal) → Except PyErr (List (String × PyVal))
  | [] => .ok []
  | leaf :: rest =>
      match apply_profile_leaf profile leaf with
      | .error e => .error e
      | .ok leaf' =>
          match set_settings_profile profile rest with
          | .error e => .error e
          | .ok rest' => .ok (leaf' :: rest')

/-- The transposed profile of the spec's squelch scenario. -/
def profileEx : List (PyKey × PyVal) :=
  [(PyKey.kstr ("sql_lvl"), profileEntry ("Squelch") (PyVal.jint 5))]

/-- A concrete walked settings tree with one profiled leaf and one
unprofiled leaf. -/
def treeEx : List (String × PyVal) :=
  [(("sql_lvl"), PyVal.jint 2), (("vox"), PyVal.jint 1)]

/-- The tree `treeEx` after the profile `profileEx` is applied. -/
def treeEx' : List (String × PyVal) :=
  [(("sql_lvl"), PyVal.jint 5), (("vox"), PyVal.jint 1)]

/-- The spec scenario's memory input mapping
`{"name": "Ch1", "frequency": 446000000}`. -/
def memJsonEx : List (String × PyVal) :=
  [(("name"), PyVal.jstr ("Ch1")), (("frequency"), PyVal.jint 446000000)]

lemma pyEqInt_jint (m n : Int) : pyEqInt (PyVal.jint m) n = decide (m = n) := rfl

lemma clear_memories_bank (l : List Nat) (st : BankState)
    (hinv : ∀ i ∈ l, (st.bank i).number = PyVal.jint (Int.ofNat i))
    (hnd : l.Nodup) (j : Nat) :
    (clear_memories l st).bank j =
      if j ∈ l then { st.bank j with empty := true } else st.bank j := by
  induction l generalizing st with
  | nil => simp [clear_memories]
  | cons i rest ih =>
      have hnum : (st.bank i).number = PyVal.jint (Int.ofNat i) :=
        hinv i (List.mem_cons_self i rest)
      have hbank : ∀ j : Nat,
          (set_memory st { get_memory st i with empty := true }).bank j =
            if i = j then { st.bank i with empty := true } else st.bank j := by
        intro j
        simp only [set_memory, get_memory, hnum, pyEqInt_jint]
        by_cases h : i = j <;> simp [h]
      have hnd' : rest.Nodup := (List.nodup_cons.mp hnd).2
      have hni : i ∉ rest := (List.nodup_cons.mp hnd).1
      have hinv' : ∀ j ∈ rest,
          ((set_memory st { get_memory st i with empty := true }).bank j).number =
            PyVal.jint (Int.ofNat j) := by
        intro j hj
        rw [hbank j]
        have : i ≠ j := fun h => hni (h ▸ hj)
        simp only [this, if_false]
        exact hinv j (List.mem_cons_of_mem i hj)
      rw [clear_memories, ih _ hinv' hnd']
      by_cases hjr : j ∈ rest
      · have hij : i ≠ j := fun h => hni (h ▸ hjr)
        simp [hjr, hbank j, hij, List.mem_cons]
      · by_cases hij : i = j
        · subst hij
          simp [hjr, hbank i, List.mem_cons]
        · have hji : j ≠ i := fun h => hij h.symm
          have : j ∉ (i :: rest) := by simp [List.mem_cons, hjr, hji]
          simp [hjr, hbank j, hij, this]

lemma clear_memories_log (l : List Nat) (st : BankState) :
    (clear_memories l st).setLog.length = st.setLog.length + l.length := by
  induction l generalizing st with
  | nil => simp [clear_memories]
  | cons i rest ih =>
      rw [clear_memories, ih]
      simp [set_memory]
      omega

lemma program_memories_bank_out (R : List RadijatorMemory) (n : Nat) (st : BankState)
    (j : Nat) (hj : j < n ∨ n + R.length ≤ j) :
    (program_memories n R st).bank j = st.bank j := by
  induction R generalizing n st with
  | nil => simp [program_memories]
  | cons m rest ih =>
      rw [program_memories]
      have hnj : n ≠ j := by
        rcases hj with h | h
        · omega
        · simp only [List.length_cons] at h; omega
      have hj' : j < n + 1 ∨ (n + 1) + rest.length ≤ j := by
        rcases hj with h | h
        · left; omega
        · right; simp only [List.length_cons] at h; omega
      rw [ih _ _ hj']
      simp [set_memory, RadijatorMemory.to_chirp_memory, pyEqInt_jint]
      intro h
      exact absurd h hnj

lemma program_memories_bank_hit (R : List RadijatorMemory) (n : Nat) (st : BankState)
    (j : Nat) (hj : j < R.length) :
    (program_memories n R st).bank (n + j) =
      RadijatorMemory.to_chirp_memory
        { R.get ⟨j, hj⟩ with number := PyVal.jint (Int.ofNat (n + j)) } := by
  induction R generalizing n st j with
  | nil => simp at hj
  | cons m rest ih =>
      rw [program_memories]
      cases j with
      | zero =>
          rw [program_memories_bank_out rest (n + 1) _ (n + 0) (Or.inl (by omega))]
          simp [set_memory, RadijatorMemory.to_chirp_memory, pyEqInt_jint]
      | succ j' =>
          have hj' : j' < rest.length := by simpa using hj
          have : n + (j' + 1) = (n + 1) + j' := by omega
          rw [this, ih _ _ j' hj']
          have : (n + 1) + j' = n + (j' + 1) := by omega
          simp [this]

lemma program_memories_log (R : List RadijatorMemory) (n : Nat) (st : BankState) :
    (program_memories n R st).setLog.length = st.setLog.length + R.length := by
  induction R generalizing n st with
  | nil => simp [program_memories]
  | cons m rest ih =>
      rw [program_memories, ih]
      simp [set_memory]
      omega

/-- Claim C3: for a record list `R` no longer than the addressable range
size (range `1..size`, 1-indexed), after `set_memories` slot `1 + j`
holds exactly the wire form of `R[j]` with its `number` overridden to
`1 + j`, and every slot of the range beyond `R.length` is empty — for
every prior bank contents satisfying the driver invariant that a stored
memory's `number` names its slot. -/
theorem set_memories_programs_bank (R : List RadijatorMemory) (size : Nat) (st : BankState)
    (hlen : R.length ≤ size)
    (hinv : ∀ i ∈ List.range' 1 size, (st.bank i).number = PyVal.jint (Int.ofNat i)) :
    (∀ j (hj : j < R.length),
        (set_memories R (List.range' 1 size) st).bank (1 + j) =
          RadijatorMemory.to_chirp_memory
            { R.get ⟨j, hj⟩ with number := PyVal.jint (Int.ofNat (1 + j)) }) ∧
    (∀ i, R.length < i → i ≤ size →
        ((set_memories R (List.range' 1 size) st).bank i).empty = true) := by
  constructor
  · intro j hj
    exact program_memories_bank_hit R 1 _ j hj
  · intro i hgt hle
    rw [set_memories, program_memories_bank_out R 1 _ i (Or.inr (by omega)),
      clear_memories_bank _ _ hinv (List.nodup_range' 1 size)]
    have : i ∈ List.range' 1 size := List.mem_range'_1.mpr ⟨by omega, by omega⟩
    simp [this]

/-- Witness for claim C3 at `R = [memRecEx1]`, `size = 2`. -/
theorem set_memories_programs_bank_witness :
    ([memRecEx1].length ≤ 2 ∧
      (∀ i ∈ List.range' 1 2, (bankStEx.bank i).number = PyVal.jint (Int.ofNat i))) ∧
    ((∀ j (hj : j < [memRecEx1].length),
        (set_memories [memRecEx1] (List.range' 1 2) bankStEx).bank (1 + j) =
          RadijatorMemory.to_chirp_memory
            { [memRecEx1].get ⟨j, hj⟩ with number := PyVal.jint (Int.ofNat (1 + j)) }) ∧
      (∀ i, [memRecEx1].length < i → i ≤ 2 →
        ((set_memories [memRecEx1] (List.range' 1 2) bankStEx).bank i).empty = true)) := by
  refine ⟨⟨by decide, fun i _ => rfl⟩, ?_⟩
  exact set_memories_programs_bank [memRecEx1] 2 bankStEx (by decide) (fun i _ => rfl)

/-- Claim C1 counterexample: with a 1-slot range and two records
(`len(R) = 2 > 1 = range_size`), `set_memories` performs its Step-2
writes anyway: the bank accessor records two set calls beyond those of
the clearing step, not zero, and no exception of any kind is raised
(the function is total and returns the final bank state). -/
theorem set_memories_overflow_counterexample :
    [memRecEx1, memRecEx2].length > (List.range' 1 1).length ∧
    (set_memories [memRecEx1, memRecEx2] (List.range' 1 1) bankStEx).setLog.length
      - (clear_memories (List.range' 1 1) bankStEx).setLog.length = 2 := by
  exact ⟨by decide, rfl⟩

/-- Claim C1 (amended): `set_memories` checks nothing against the range
size and raises no `MemoryRangeExceeded` (no such exception exists in
the program): for every record list, range and prior bank state it runs
to completion, and the bank accessor records one set call per range slot
(Step 1 clearing) plus one set call per supplied record (Step 2
programming), even when the record count exceeds the range size. -/
theorem set_memories_always_writes_all (R : List RadijatorMemory)
    (memory_range : List Nat) (st : BankState) :
    (set_memories R memory_range st).setLog.length
      = st.setLog.length + memory_range.length + R.length := by
  rw [set_memories, program_memories_log, clear_memories_log]

/-- Claim C2 counterexample: in the session where `sync_in` raises after
the transport was opened, `download_fw` ends with the transport still
open — the trace records the open but no close. -/
theorem download_fw_leaks_counterexample :
    SessionEvent.openPort ∈ (download_fw envSyncInFails true).2 ∧
    SessionEvent.closePort ∉ (download_fw envSyncInFails true).2 := by
  decide

/-- Claim C2 (amended): the transport handle opened for a `sync_in` or
`sync_out` exchange is closed (exactly once) before the session ends
when every step of the exchange returns normally; when a step raises
after the open, the close is skipped and the handle leaks, because
`download_fw` and `upload_fw` have no `try`/`finally` around the
transport. -/
theorem session_transport_closed_on_success (env : SessionEnv) (wait_for_reset : Bool)
    (ho : env.openFails = false) (hi : env.syncInFails = false)
    (hg : env.getSettingsFails = false) (hu : env.syncOutFails = false) :
    (download_fw env wait_for_reset).1 = .ok () ∧
    (download_fw env wait_for_reset).2.count .openPort = 1 ∧
    (download_fw env wait_for_reset).2.count .closePort = 1 ∧
    (upload_fw env).1 = .ok () ∧
    (upload_fw env).2.count .openPort = 1 ∧
    (upload_fw env).2.count .closePort = 1 := by
  cases wait_for_reset <;>
    simp [download_fw, upload_fw, ho, hi, hg, hu, List.count_cons, List.count_append]

/-- Witness for claim C2 (amended) in the all-successful environment. -/
theorem session_transport_closed_on_success_witness :
    let env : SessionEnv :=
      { openFails := false
        syncInFails := false
        getSettingsFails := false
        syncOutFails := false }
    env.openFails = false ∧ env.syncInFails = false ∧
    env.getSettingsFails = false ∧ env.syncOutFails = false ∧
    ((download_fw env true).1 = .ok () ∧
      (download_fw env true).2.count .openPort = 1 ∧
      (download_fw env true).2.count .closePort = 1 ∧
      (upload_fw env).1 = .ok () ∧
      (upload_fw env).2.count .openPort = 1 ∧
      (upload_fw env).2.count .closePort = 1) := by
  exact ⟨rfl, rfl, rfl, rfl,
    session_transport_closed_on_success _ true rfl rfl rfl rfl⟩

/-- Claim C4 counterexample: the document `{"a": []}` is not a mapping
of mappings, yet the transposer does not fail at all — it returns the
empty transposed profile (`ProfileFormatError` does not exist in the
program; no error of any kind is raised here). -/
theorem transpose_not_mapping_of_mappings_counterexample :
    isMappingOfMappings (PyVal.jobj [(("a"), PyVal.jarr [])]) = false ∧
    transpose_settings_profile (PyVal.jobj [(("a"), PyVal.jarr [])]) ("uv5r") = .ok [] := by
  exact ⟨rfl, rfl⟩

/-- Claim C4 (amended): the program defines no `ProfileFormatError`.
When the parsed document is not a mapping at its top level, the
transposer fails with the built-in `AttributeError` (from
`profile.items()`); a mapping whose values are not mappings is not
necessarily an error (see the counterexample: a list value that lacks
the model id is skipped silently). -/
theorem transpose_top_level_not_mapping (doc : PyVal) (model_id : String)
    (h : ∀ fs, doc ≠ PyVal.jobj fs) :
    transpose_settings_profile doc model_id = .error .attributeError := by
  cases doc <;> first | rfl | exact absurd rfl (h _)

/-- Witness for claim C4 (amended) at the list document `[]`. -/
theorem transpose_top_level_not_mapping_witness :
    (∀ fs, PyVal.jarr [] ≠ PyVal.jobj fs) ∧
    transpose_settings_profile (PyVal.jarr []) ("uv5r") = .error .attributeError := by
  exact ⟨fun fs h => PyVal.noConfusion h,
    transpose_top_level_not_mapping _ _ (fun fs h => PyVal.noConfusion h)⟩

lemma lookupStr_isSome_iff_any (fs : List (String × PyVal)) (k : String) :
    (lookupStr fs k).isSome = fs.any fun p => decide (p.1 = k) := by
  induction fs with
  | nil => rfl
  | cons p rest ih => by_cases h : p.1 = k <;> simp [lookupStr, h, ih]

lemma dictLookup_dictSet (d : List (PyKey × PyVal)) (k : PyKey) (v : PyVal) (k' : PyKey) :
    dictLookup (dictSet d k v) k' = if k' = k then some v else dictLookup d k' := by
  induction d with
  | nil =>
      by_cases h : k' = k
      · subst h; simp [dictSet, dictLookup]
      · have h' : ¬ k = k' := fun e => h e.symm
        simp [dictSet, dictLookup, h, h']
  | cons p rest ih =>
      by_cases hp : p.1 = k
      · by_cases h : k' = k
        · subst h; simp [dictSet, hp, dictLookup]
        · have h' : ¬ k = k' := fun e => h e.symm
          have hp' : ¬ p.1 = k' := by rw [hp]; exact h'
          simp [dictSet, hp, dictLookup, h, h', hp']
      · by_cases h : k' = k
        · subst h
          simp [dictSet, hp, dictLookup, ih]
        · simp [dictSet, hp, dictLookup, ih, h]

lemma dictLookup_foldl_dictSet (l : List (PyKey × PyVal)) (init : List (PyKey × PyVal))
    (k : PyKey) :
    dictLookup (l.foldl (fun d p => dictSet d p.1 p.2) init) k =
      l.foldl (fun acc p => if p.1 = k then some p.2 else acc) (dictLookup init k) := by
  induction l generalizing init with
  | nil => rfl
  | cons p rest ih =>
      simp only [List.foldl_cons]
      rw [ih]
      congr 1
      rw [dictLookup_dictSet]
      by_cases h : k = p.1
      · simp [h]
      · have h' : ¬ p.1 = k := fun e => h e.symm
        simp [h, h']

lemma isHashable_toKey (v : PyVal) (h : isHashable v = true) : ∃ k, v.toKey = some k := by
  cases v <;> first | exact ⟨_, rfl⟩ | simp [isHashable] at h

lemma lastAssoc_aux (l : List (PyKey × PyVal)) (k : PyKey) (acc : Option PyVal) (e : PyVal)
    (h : l.foldl (fun acc p => if p.1 = k then some p.2 else acc) acc = some e) :
    (k, e) ∈ l ∨ acc = some e := by
  induction l generalizing acc with
  | nil => exact Or.inr h
  | cons p rest ih =>
      rcases ih _ h with hm | hacc
      · exact Or.inl (List.mem_cons_of_mem _ hm)
      · by_cases hp : p.1 = k
        · left
          obtain ⟨p1, p2⟩ := p
          simp only at hp
          subst hp
          simp only [if_pos rfl] at hacc
          cases Option.some.inj hacc
          exact List.mem_cons_self _ _
        · right
          simpa [hp] using hacc

lemma transpose_loop_eq (model_id : String) (items : List (String × PyVal)) :
    ∀ acc : List (PyKey × PyVal),
    (∀ p ∈ items, wfModelSettings model_id p.2 = true) →
    transpose_loop model_id acc items =
      .ok ((items.filterMap (modelContribution model_id)).foldl
        (fun d p => dictSet d p.1 p.2) acc) := by
  induction items with
  | nil => intro acc _; rfl
  | cons p rest ih =>
      intro acc hwf
      have hwfp := hwf _ (List.mem_cons_self _ _)
      have hwfr : ∀ q ∈ rest, wfModelSettings model_id q.2 = true :=
        fun q hq => hwf q (List.mem_cons_of_mem _ hq)
      obtain ⟨label, ms⟩ := p
      cases ms with
      | jobj fs =>
          cases hlk : lookupStr fs model_id with
          | none =>
              have hb : (fs.any fun q => decide (q.1 = model_id)) = false := by
                rw [← lookupStr_isSome_iff_any, hlk]; rfl
              simp only [transpose_loop, pyContains, hb, List.filterMap_cons,
                modelContribution, hlk]
              exact ih acc hwfr
          | some e =>
              have hb : (fs.any fun q => decide (q.1 = model_id)) = true := by
                rw [← lookupStr_isSome_iff_any, hlk]; rfl
              simp only [wfModelSettings, hlk] at hwfp
              cases e with
              | jobj efs =>
                  rw [Bool.and_eq_true] at hwfp
                  obtain ⟨hv, hn⟩ := hwfp
                  obtain ⟨v, hv'⟩ := Option.isSome_iff_exists.mp hv
                  cases hn' : lookupStr efs ("name") with
                  | none => rw [hn'] at hn; exact absurd hn (by simp)
                  | some nm =>
                      rw [hn'] at hn
                      obtain ⟨k, hk⟩ := isHashable_toKey nm hn
                      simp only [transpose_loop, pyContains, hb, pyGetItemStr,
                        hlk, hv', hn', hk, List.filterMap_cons, modelContribution]
                      exact ih _ hwfr
              | jnull => exact absurd hwfp (by simp)
              | jbool b => exact absurd hwfp (by simp)
              | jint n => exact absurd hwfp (by simp)
              | jfloat q => exact absurd hwfp (by simp)
              | jstr s => exact absurd hwfp (by simp)
              | jarr xs => exact absurd hwfp (by simp)
      | jnull => exact absurd hwfp (by simp [wfModelSettings])
      | jbool b => exact absurd hwfp (by simp [wfModelSettings])
      | jint n => exact absurd hwfp (by simp [wfModelSettings])
      | jfloat q => exact absurd hwfp (by simp [wfModelSettings])
      | jstr s => exact absurd hwfp (by simp [wfModelSettings])
      | jarr xs => exact absurd hwfp (by simp [wfModelSettings])

/-- Claim C5: for a well-formed authored document and a model id, the
transposer succeeds; every key of the result is the internal setting
name contributed by some label that has an entry for the model id,
mapped to that entry's value paired with the label as pretty name;
labels without an entry for the model id contribute nothing and are
skipped without error; and when two labels contribute the same internal
name, the later one in document iteration order wins. -/
theorem transpose_settings_profile_characterization
    (items : List (String × PyVal)) (model_id : String)
    (hwf : ∀ p ∈ items, wfModelSettings model_id p.2 = true) :
    ∃ r, transpose_settings_profile (PyVal.jobj items) model_id = .ok r ∧
      (∀ k e, dictLookup r k = some e →
        ∃ p ∈ items, modelContribution model_id p = some (k, e)) ∧
      (∀ k, dictLookup r k =
        lastAssoc (items.filterMap (modelContribution model_id)) k) := by
  refine ⟨(items.filterMap (modelContribution model_id)).foldl
      (fun d p => dictSet d p.1 p.2) [], ?_, ?_, ?_⟩
  · exact transpose_loop_eq model_id items [] hwf
  · intro k e he
    rw [dictLookup_foldl_dictSet] at he
    have := lastAssoc_aux _ k none e he
    rcases this with hm | hx
    · obtain ⟨p, hp, hcp⟩ := List.mem_filterMap.mp hm
      exact ⟨p, hp, hcp⟩
    · cases hx
  · intro k
    exact dictLookup_foldl_dictSet _ [] k

/-- Witness for claim C5 at the spec's squelch scenario document. -/
theorem transpose_settings_profile_characterization_witness :
    (∀ p ∈ scenarioDoc, wfModelSettings ("modelA") p.2 = true) ∧
    (∃ r, transpose_settings_profile (PyVal.jobj scenarioDoc) ("modelA") = .ok r ∧
      (∀ k e, dictLookup r k = some e →
        ∃ p ∈ scenarioDoc, modelContribution ("modelA") p = some (k, e)) ∧
      (∀ k, dictLookup r k =
        lastAssoc (scenarioDoc.filterMap (modelContribution ("modelA"))) k)) := by
  exact ⟨by decide,
    transpose_settings_profile_characterization scenarioDoc ("modelA") (by decide)⟩

lemma apply_profile_leaf_idem (profile : List (PyKey × PyVal)) (leaf leaf' : String × PyVal)
    (h : apply_profile_leaf profile leaf = .ok leaf') :
    apply_profile_leaf profile leaf' = .ok leaf' := by
  cases hlk : dictLookup profile (PyKey.kstr leaf.1) with
  | none =>
      simp only [apply_profile_leaf, hlk] at h
      cases h
      simp [apply_profile_leaf, hlk]
  | some entry =>
      simp only [apply_profile_leaf, hlk] at h
      cases hv : pyGetItemStr entry ("value") with
      | error e =>
          simp only [hv] at h
          exact Except.noConfusion h
      | ok v =>
          simp only [hv] at h
          cases h
          simp [apply_profile_leaf, hlk, hv]

/-- Claim C6: the settings reconciler is idempotent: when applying the
transposed profile to the walked settings tree succeeds with result
`tree'`, applying the same profile to `tree'` succeeds and returns
`tree'` unchanged — the same final leaf values as the single apply. -/
theorem set_settings_profile_idempotent (profile : List (PyKey × PyVal))
    (tree tree' : List (String × PyVal))
    (h : set_settings_profile profile tree = .ok tree') :
    set_settings_profile profile tree' = .ok tree' := by
  induction tree generalizing tree' with
  | nil =>
      cases h
      rfl
  | cons leaf rest ih =>
      cases hl : apply_profile_leaf profile leaf with
      | error e => rw [set_settings_profile, hl] at h; cases h
      | ok leaf' =>
          cases hr : set_settings_profile profile rest with
          | error e => rw [set_settings_profile, hl, hr] at h; cases h
          | ok rest' =>
              rw [set_settings_profile, hl, hr] at h
              cases h
              rw [set_settings_profile, apply_profile_leaf_idem profile leaf leaf' hl,
                ih rest' hr]

/-- Witness for claim C6 at the squelch scenario profile and tree. -/
theorem set_settings_profile_idempotent_witness :
    set_settings_profile profileEx treeEx = .ok treeEx' ∧
    set_settings_profile profileEx treeEx' = .ok treeEx' :=
  ⟨rfl, set_settings_profile_idempotent profileEx treeEx treeEx' rfl⟩

/-- Claim C7: the reconciler overwrites exactly the leaves whose internal
name is a key of the transposed profile — those receive the profile's
target value — and every other leaf keeps its current device-reported
value; the walked tree keeps its length. -/
theorem set_settings_profile_frame (profile : List (PyKey × PyVal))
    (tree tree' : List (String × PyVal))
    (h : set_settings_profile profile tree = .ok tree') :
    tree'.length = tree.length ∧
    ∀ i (hi : i < tree.length) (hi' : i < tree'.length),
      (dictLookup profile (PyKey.kstr (tree.get ⟨i, hi⟩).1) = none →
        tree'.get ⟨i, hi'⟩ = tree.get ⟨i, hi⟩) ∧
      (∀ entry, dictLookup profile (PyKey.kstr (tree.get ⟨i, hi⟩).1) = some entry →
        ∃ v, pyGetItemStr entry ("value") = .ok v ∧
          tree'.get ⟨i, hi'⟩ = ((tree.get ⟨i, hi⟩).1, v)) := by
  induction tree generalizing tree' with
  | nil =>
      cases h
      exact ⟨rfl, fun i hi _ => absurd hi (Nat.not_lt_zero i)⟩
  | cons leaf rest ih =>
      cases hl : apply_profile_leaf profile leaf with
      | error e => rw [set_settings_profile, hl] at h; cases h
      | ok leaf' =>
          cases hr : set_settings_profile profile rest with
          | error e => rw [set_settings_profile, hl, hr] at h; cases h
          | ok rest' =>
              rw [set_settings_profile, hl, hr] at h
              cases h
              obtain ⟨hlen, hidx⟩ := ih rest' hr
              refine ⟨by simp [hlen], ?_⟩
              intro i hi hi'
              cases i with
              | zero =>
                  constructor
                  · intro hnone
                    have hn : dictLookup profile (PyKey.kstr leaf.1) = none := hnone
                    simp only [apply_profile_leaf, hn] at hl
                    cases hl
                    rfl
                  · intro entry hent
                    have he : dictLookup profile (PyKey.kstr leaf.1) = some entry := hent
                    simp only [apply_profile_leaf, he] at hl
                    cases hv : pyGetItemStr entry ("value") with
                    | error e =>
                        simp only [hv] at hl
                        exact Except.noConfusion hl
                    | ok v =>
                        simp only [hv] at hl
                        cases hl
                        exact ⟨v, rfl, rfl⟩
              | succ j =>
                  have hj : j < rest.length := by simpa using hi
                  have hj' : j < rest'.length := by simpa using hi'
                  exact hidx j hj hj'

/-- Witness for claim C7 at the squelch scenario profile and tree. -/
theorem set_settings_profile_frame_witness :
    set_settings_profile profileEx treeEx = .ok treeEx' ∧
    (treeEx'.length = treeEx.length ∧
      ∀ i (hi : i < treeEx.length) (hi' : i < treeEx'.length),
        (dictLookup profileEx (PyKey.kstr (treeEx.get ⟨i, hi⟩).1) = none →
          treeEx'.get ⟨i, hi'⟩ = treeEx.get ⟨i, hi⟩) ∧
        (∀ entry, dictLookup profileEx (PyKey.kstr (treeEx.get ⟨i, hi⟩).1) = some entry →
          ∃ v, pyGetItemStr entry ("value") = .ok v ∧
            treeEx'.get ⟨i, hi'⟩ = ((treeEx.get ⟨i, hi⟩).1, v))) :=
  ⟨rfl, set_settings_profile_frame profileEx treeEx treeEx' rfl⟩

/-- Claim C9: for an input mapping containing the required `name` and
`frequency` keys, `from_json` succeeds; each absent optional key takes
its documented default (`tone` empty, `rdcs_code` 23, `tdcs_code` 23,
`dcs_polarity` "NN", `mode` "NFM", `tuning_step` 5.0) and each present
key takes the supplied value; `name`/`freq` take the mapping's values
and `power_level` the passed-in level. -/
theorem from_json_defaults (data : List (String × PyVal)) (power_level : PyVal)
    (hn : (lookupStr data ("name")).isSome = true)
    (hf : (lookupStr data ("frequency")).isSome = true) :
    ∃ r, RadijatorMemory.from_json data power_level = .ok r ∧
      some r.name = lookupStr data ("name") ∧
      some r.freq = lookupStr data ("frequency") ∧
      r.power_level = power_level ∧
      (lookupStr data ("tone") = none → r.tone = PyVal.jstr ("")) ∧
      (lookupStr data ("rdcs_code") = none → r.rdcs_code = PyVal.jint 23) ∧
      (lookupStr data ("tdcs_code") = none → r.tdcs_code = PyVal.jint 23) ∧
      (lookupStr data ("dcs_polarity") = none → r.dcs_polarity = PyVal.jstr ("NN")) ∧
      (lookupStr data ("mode") = none → r.mode = PyVal.jstr ("NFM")) ∧
      (lookupStr data ("tuning_step") = none → r.tuning_step = PyVal.jfloat 5) ∧
      (∀ v, lookupStr data ("tone") = some v → r.tone = v) ∧
      (∀ v, lookupStr data ("rdcs_code") = some v → r.rdcs_code = v) ∧
      (∀ v, lookupStr data ("tdcs_code") = some v → r.tdcs_code = v) ∧
      (∀ v, lookupStr data ("dcs_polarity") = some v → r.dcs_polarity = v) ∧
      (∀ v, lookupStr data ("mode") = some v → r.mode = v) ∧
      (∀ v, lookupStr data ("tuning_step") = some v → r.tuning_step = v) := by
  obtain ⟨nv, hnv⟩ := Option.isSome_iff_exists.mp hn
  obtain ⟨fv, hfv⟩ := Option.isSome_iff_exists.mp hf
  refine ⟨{ number := (lookupStr data ("number")).getD PyVal.jnull
            name := nv
            freq := fv
            power_level := power_level
            tone := (lookupStr data ("tone")).getD (PyVal.jstr (""))
            rdcs_code := (lookupStr data ("rdcs_code")).getD (PyVal.jint 23)
            tdcs_code := (lookupStr data ("tdcs_code")).getD (PyVal.jint 23)
            dcs_polarity := (lookupStr data ("dcs_polarity")).getD (PyVal.jstr ("NN"))
            mode := (lookupStr data ("mode")).getD (PyVal.jstr ("NFM"))
            tuning_step := (lookupStr data ("tuning_step")).getD (PyVal.jfloat 5) },
    ?_, hnv.symm, hfv.symm, rfl, ?_, ?_, ?_, ?_, ?_, ?_, ?_, ?_, ?_, ?_, ?_, ?_⟩
  · simp [RadijatorMemory.from_json, pyGetItemStr, hnv, hfv]
  · intro h; simp [h]
  · intro h; simp [h]
  · intro h; simp [h]
  · intro h; simp [h]
  · intro h; simp [h]
  · intro h; simp [h]
  · intro v h; simp [h]
  · intro v h; simp [h]
  · intro v h; simp [h]
  · intro v h; simp [h]
  · intro v h; simp [h]
  · intro v h; simp [h]

/-- Witness for claim C9 at the spec's one-channel memory mapping. -/
theorem from_json_defaults_witness :
    (lookupStr memJsonEx ("name")).isSome = true ∧
    (lookupStr memJsonEx ("frequency")).isSome = true ∧
    (∃ r, RadijatorMemory.from_json memJsonEx (PyVal.jstr ("High")) = .ok r ∧
      some r.name = lookupStr memJsonEx ("name") ∧
      some r.freq = lookupStr memJsonEx ("frequency") ∧
      r.power_level = PyVal.jstr ("High") ∧
      (lookupStr memJsonEx ("tone") = none → r.tone = PyVal.jstr ("")) ∧
      (lookupStr memJsonEx ("rdcs_code") = none → r.rdcs_code = PyVal.jint 23) ∧
      (lookupStr memJsonEx ("tdcs_code") = none → r.tdcs_code = PyVal.jint 23) ∧
      (lookupStr memJsonEx ("dcs_polarity") = none → r.dcs_polarity = PyVal.jstr ("NN")) ∧
      (lookupStr memJsonEx ("mode") = none → r.mode = PyVal.jstr ("NFM")) ∧
      (lookupStr memJsonEx ("tuning_step") = none → r.tuning_step = PyVal.jfloat 5) ∧
      (∀ v, lookupStr memJsonEx ("tone") = some v → r.tone = v) ∧
      (∀ v, lookupStr memJsonEx ("rdcs_code") = some v → r.rdcs_code = v) ∧
      (∀ v, lookupStr memJsonEx ("tdcs_code") = some v → r.tdcs_code = v) ∧
      (∀ v, lookupStr memJsonEx ("dcs_polarity") = some v → r.dcs_polarity = v) ∧
      (∀ v, lookupStr memJsonEx ("mode") = some v → r.mode = v) ∧
      (∀ v, lookupStr memJsonEx ("tuning_step") = some v → r.tuning_step = v)) :=
  ⟨rfl, rfl, from_json_defaults memJsonEx (PyVal.jstr ("High")) rfl rfl⟩

/-- Claim C8: converting a device-read chirp memory to a `RadijatorMemory`
and back preserves frequency, power level, both DCS codes, DCS polarity,
operating mode and tuning step, while `duplex` is always the empty string
and `offset` always `0`. -/
theorem chirp_memory_round_trip (m : ChirpMem) :
    (RadijatorMemory.to_chirp_memory (RadijatorMemory.from_chirp_memory m)).freq = m.freq ∧
    (RadijatorMemory.to_chirp_memory (RadijatorMemory.from_chirp_memory m)).power = m.power ∧
    (RadijatorMemory.to_chirp_memory (RadijatorMemory.from_chirp_memory m)).rx_dtcs = m.rx_dtcs ∧
    (RadijatorMemory.to_chirp_memory (RadijatorMemory.from_chirp_memory m)).dtcs = m.dtcs ∧
    (RadijatorMemory.to_chirp_memory (RadijatorMemory.from_chirp_memory m)).dtcs_polarity = m.dtcs_polarity ∧
    (RadijatorMemory.to_chirp_memory (RadijatorMemory.from_chirp_memory m)).mode = m.mode ∧
    (RadijatorMemory.to_chirp_memory (RadijatorMemory.from_chirp_memory m)).tuning_step = m.tuning_step ∧
    (RadijatorMemory.to_chirp_memory (RadijatorMemory.from_chirp_memory m)).duplex = PyVal.jstr ("") ∧
    (RadijatorMemory.to_chirp_memory (RadijatorMemory.from_chirp_memory m)).offset = PyVal.jint 0 := by
  exact ⟨rfl, rfl, rfl, rfl, rfl, rfl, rfl, rfl, rfl⟩

/-- Claim C10: `from_chirp_memory` never copies the device's tone mode:
the built record's `tone` is always the empty string, so converting back
always yields `tmode == ""`, silently dropping the device's tone-mode
setting. -/
theorem from_chirp_memory_drops_tmode (m : ChirpMem) :
    (RadijatorMemory.from_chirp_memory m).tone = PyVal.jstr ("") ∧
    (RadijatorMemory.to_chirp_memory (RadijatorMemory.from_chirp_memory m)).tmode = PyVal.jstr ("") := by
  exact ⟨rfl, rfl⟩
